import Mathlib

/-!
Verification development for the `DummyBlueforsSlave` cryostat simulator
(`dummpy_bluefors_2.py`).

Modelling conventions of the shallow embedding:

* Wall-clock instants (`datetime.now()`) are external inputs: every mutating
  operation receives a `now : Nat`, measured in microseconds (the precision of
  Python `datetime`).  `strftime("%d-%m-%y")` / `strftime("%H:%M:%S")` keep
  only the calendar day and the second of day, so a logged row stores the pair
  `(dateOf now, timeOf now)`; re-parsing it with `strptime` yields the
  timestamp truncated to whole seconds, `truncSec now`.  (The two-digit `%y`
  century wrap is outside the model: day numbers are abstract `Nat`s.)
* Python `dict`s with a fixed key set preserve insertion order, and in-place
  value updates do not reorder keys; the channel dictionary is therefore an
  association list in the fixed construction order, and the rows written by
  `_log_state` coincide with that list.  The unused `''` ID column of a state
  row (index 2) is dropped from the structured row.
* Exact rationals `ℚ` stand for Python floats.  The `%.3e` formatting of a
  pressure is modelled as the pair (mantissa rounded to three decimals and
  scaled by 1000, exponent) with the exponent `⌊log10 p⌋`; parsing multiplies
  back.  The rounding mode only differs from C's round-half-even at exact
  ties, which no reachable value produces.  `%.3f` formatting of a sensor is
  modelled as rounding to three decimals.
* `raise` aborts the Python call before any mutation in `set_channel`
  (both checks precede all writes), so fallible operations return
  `Except SetError Fridge` and an error carries no new state.
* Optional CSV mirroring writes exactly the in-memory row, so the structured
  row doubles as the file row; filesystem effects themselves are out of scope.
-/

/-! ### Timestamps -/

def usPerSec : Nat := 1000000

def usPerDay : Nat := 86400000000

/-- Calendar-day number carried by `strftime("%d-%m-%y")`. -/
def dateOf (t : Nat) : Nat := t / usPerDay

/-- Second of day carried by `strftime("%H:%M:%S")`. -/
def timeOf (t : Nat) : Nat := t % usPerDay / usPerSec

/-- Truncation of a microsecond timestamp to whole seconds; this is what
`strptime` recovers from a logged `(date, time)` pair. -/
def truncSec (t : Nat) : Nat := t / usPerSec * usPerSec

/-! ### Values and errors -/

/-- A Python value passed as the `value` argument of `set_channel`:
the docstring admits `0/1/2 or '0'/'1'/'2'`; `str(value)` normalizes both. -/
inductive PyVal where
  | str (s : String)
  | int (n : ℤ)
deriving Repr, DecidableEq

/-- Python `str(value)`. -/
def pyStr : PyVal → String
  | PyVal.str s => s
  | PyVal.int n => toString n

/-- The two rejection modes of `set_channel`: `KeyError` for an unknown
channel, `ValueError` for a value outside `{0,1,2}`. -/
inductive SetError where
  | unknownChannel
  | invalidValue
deriving Repr, DecidableEq

/-! ### Data model -/

/-- The fixed channel set, in the insertion order of `self.state`. -/
def channelNames : List String :=
  ["scroll1", "scroll2", "turbo1", "compressor", "pulsetube", "ext",
   "v5", "v6", "v7", "v9", "v13", "hs-still", "hs-mc"]

/-- The fixed sensor dictionary `self.sensors` (keys never change). -/
structure Sensors where
  mix_chamber : ℚ
  still : ℚ
  platform : ℚ
  cptempwi : ℚ
  cptempwo : ℚ
  tc400setspdatt : ℤ
deriving Repr, DecidableEq

/-- One row of `_state_log` / `Channels.csv`:
`[date, time, '', key1, val1, key2, val2, ...]`. -/
structure StateRow where
  date : Nat
  time : Nat
  fields : List (String × String)
deriving Repr, DecidableEq

/-- One row of `_status_log` / `Status.csv`:
`[date, time, key1, val1, ...]` with `%.3f`-formatted numeric values. -/
structure StatusRow where
  date : Nat
  time : Nat
  fields : List (String × ℚ)
deriving Repr, DecidableEq

/-- One row of `_pressure_log` / `maxigauge.csv`:
`[date, time, p1, ..., p6]` with `%.3e`-formatted values, modelled as
(mantissa·1000, exponent) pairs. -/
structure PressureRow where
  date : Nat
  time : Nat
  readings : List (ℤ × ℤ)
deriving Repr, DecidableEq

/-- The whole simulator state of a `DummyBlueforsSlave` instance. -/
structure Fridge where
  state : List (String × String)
  sensors : Sensors
  pressures : List ℚ
  state_log : List StateRow
  status_log : List StatusRow
  pressure_log : List PressureRow
  last_event_check_time : Nat
deriving Repr, DecidableEq

/-! ### Association-list helpers (Python dict reads/writes) -/

/-- `d.get(k)` on a string-valued dict. -/
def lookupS (l : List (String × String)) (k : String) : Option String :=
  (l.find? (fun p => p.1 == k)).map Prod.snd

/-- `d.get(k)` on a numeric-valued dict. -/
def lookupQ (l : List (String × ℚ)) (k : String) : Option ℚ :=
  (l.find? (fun p => p.1 == k)).map Prod.snd

/-- In-place value update `d[k] = v` of a Python dict (keys and their order
are unchanged). -/
def updateAssoc (l : List (String × String)) (k v : String) :
    List (String × String) :=
  l.map (fun p => if p.1 == k then (p.1, v) else p)

/-! ### Number formatting (`%.3e`, `%.3f`) -/

/-- Fuel-driven `⌊log10 n⌋` for naturals (structural recursion so that the
kernel can evaluate it). -/
def log10Aux : Nat → Nat → Nat
  | 0, _ => 0
  | fuel + 1, n => if n < 10 then 0 else log10Aux fuel (n / 10) + 1

def nlog10 (n : Nat) : Nat := log10Aux n n

/-- Fuel-driven `⌈log10 n⌉` for naturals. -/
def clog10Aux : Nat → Nat → Nat
  | 0, _ => 0
  | fuel + 1, n => if 2 ≤ n then clog10Aux fuel ((n + 9) / 10) + 1 else 0

def nclog10 (n : Nat) : Nat := clog10Aux n n

/-- `⌊log10 q⌋` of a positive rational: the exponent chosen by `%e`
formatting. -/
def qlog10 (q : ℚ) : ℤ :=
  if 1 ≤ q then (nlog10 ⌊q⌋₊ : ℤ) else -(nclog10 ⌈q⁻¹⌉₊ : ℤ)

/-- `f"{p:.3e}"`: mantissa rounded to three decimals (stored scaled by 1000)
together with the decimal exponent. -/
def fmt3e (q : ℚ) : ℤ × ℤ :=
  if 0 < q then (round (q / (10 : ℚ) ^ qlog10 q * 1000), qlog10 q)
  else if q < 0 then (round (q / (10 : ℚ) ^ qlog10 (-q) * 1000), qlog10 (-q))
  else (0, 0)

/-- `float(s)` applied to a `%.3e`-formatted string. -/
def parse3e (me : ℤ × ℤ) : ℚ := (me.1 : ℚ) / 1000 * (10 : ℚ) ^ me.2

/-- `f"{v:.3f}"` followed by `float` parsing: rounding to three decimals. -/
def round3 (q : ℚ) : ℚ := (round (q * 1000) : ℚ) / 1000

/-! ### Logging helpers -/

/-- The status row contents: `self.sensors` in insertion order, floats
`%.3f`-formatted, the int sensor stringified verbatim. -/
def statusFields (s : Sensors) : List (String × ℚ) :=
  [("mix_chamber", round3 s.mix_chamber), ("still", round3 s.still),
   ("platform", round3 s.platform), ("cptempwi", round3 s.cptempwi),
   ("cptempwo", round3 s.cptempwo), ("tc400setspdatt", (s.tc400setspdatt : ℚ))]

/-- `pressures[:6]` padded with `0.0` to exactly six entries. -/
def padTo6 (ps : List ℚ) : List ℚ :=
  ps.take 6 ++ List.replicate (6 - (ps.take 6).length) 0

/-- `_log_state`: append the current channel dict with the timestamp. -/
def log_state (f : Fridge) (now : Nat) : Fridge :=
  { f with state_log := f.state_log ++ [⟨dateOf now, timeOf now, f.state⟩] }

/-- `_log_status`: append the current sensor readings with the timestamp. -/
def log_status (f : Fridge) (now : Nat) : Fridge :=
  { f with status_log :=
      f.status_log ++ [⟨dateOf now, timeOf now, statusFields f.sensors⟩] }

/-- `_log_pressures`: append the formatted pressure readings. -/
def log_pressures (f : Fridge) (now : Nat) : Fridge :=
  { f with pressure_log :=
      f.pressure_log ++ [⟨dateOf now, timeOf now, (padTo6 f.pressures).map fmt3e⟩] }

/-- `__init__` at construction instant `t0`: default state, baseline sensors
and pressures, one seeded snapshot in each log, watermark `t0`. -/
def initFridge (t0 : Nat) : Fridge :=
  let f : Fridge :=
    { state := channelNames.map (fun k => (k, "0"))
      sensors := { mix_chamber := 300, still := 300, platform := 300,
                   cptempwi := 20, cptempwo := 20, tc400setspdatt := 0 }
      pressures := List.replicate 6 (1 / 1000)
      state_log := []
      status_log := []
      pressure_log := []
      last_event_check_time := 0 }
  let f1 := log_pressures (log_status (log_state f t0) t0) t0
  { f1 with last_event_check_time := t0 }

/-! ### `set_channel` and the toggles -/

/-- The sensor derivations of `set_channel` (lines 447-471), applied after
the channel write and before logging. -/
def applySensors (channel val_str : String) (s : Sensors) : Sensors :=
  let s1 :=
    if channel = "pulsetube" then
      if val_str = "1" then
        { s with mix_chamber := max (1 / 10) (s.mix_chamber - 50),
                 still := max 1 (s.still - 50) }
      else
        { s with mix_chamber := min 300 (s.mix_chamber + 10),
                 still := min 300 (s.still + 10) }
    else s
  let s2 :=
    if channel = "compressor" then
      if val_str = "0" then
        { s1 with cptempwi := min 25 (s1.cptempwi + 1),
                  cptempwo := min 25 (s1.cptempwo + 1) }
      else
        { s1 with cptempwi := max 15 (s1.cptempwi - 1),
                  cptempwo := max 15 (s1.cptempwo - 1) }
    else s1
  if channel = "turbo1" then { s2 with tc400setspdatt := 0 } else s2

/-- The pressure derivation of `set_channel` (lines 477-483): a vacuum pump
turned on divides every strictly positive reading by 10, any other new value
of a pump channel multiplies every reading by 10. -/
def applyPressures (channel val_str : String) (ps : List ℚ) : List ℚ :=
  if channel = "scroll1" ∨ channel = "scroll2" ∨ channel = "turbo1" then
    if val_str = "1" then ps.map (fun p => if 0 < p then p / 10 else p)
    else ps.map (fun p => p * 10)
  else ps

/-- The committed part of `set_channel` once both checks and the no-op test
have passed: write the channel, derive sensors, log state and status, derive
pressures, log pressures — all at one timestamp. -/
def commitChange (f : Fridge) (now : Nat) (channel val_str : String) : Fridge :=
  let f1 : Fridge :=
    { f with state := updateAssoc f.state channel val_str,
             sensors := applySensors channel val_str f.sensors }
  let f2 := log_status (log_state f1 now) now
  let f3 : Fridge := { f2 with pressures := applyPressures channel val_str f2.pressures }
  log_pressures f3 now

/-- `set_channel` (lines 423-484); `pyStr value` is the normalized
`val_str = str(value)`. -/
def set_channel (f : Fridge) (now : Nat) (channel : String) (value : PyVal) :
    Except SetError Fridge :=
  if (lookupS f.state channel).isNone then Except.error SetError.unknownChannel
  else if ¬(pyStr value = "0" ∨ pyStr value = "1" ∨ pyStr value = "2") then
    Except.error SetError.invalidValue
  else if lookupS f.state channel = some (pyStr value) then Except.ok f
  else Except.ok (commitChange f now channel (pyStr value))

/-- `toggle_pulsetube`: `'1' if current == '0' else '0'` (the read
`self.state.get('pulsetube', '0')` is the `getD "0"`). -/
def toggle_pulsetube (f : Fridge) (now : Nat) : Except SetError Fridge :=
  set_channel f now "pulsetube"
    (PyVal.str (if (lookupS f.state "pulsetube").getD "0" = "0" then "1" else "0"))

/-- `toggle_compressor`. -/
def toggle_compressor (f : Fridge) (now : Nat) : Except SetError Fridge :=
  set_channel f now "compressor"
    (PyVal.str (if (lookupS f.state "compressor").getD "0" = "0" then "1" else "0"))

/-- `toggle_turbo`. -/
def toggle_turbo (f : Fridge) (now : Nat) : Except SetError Fridge :=
  set_channel f now "turbo1"
    (PyVal.str (if (lookupS f.state "turbo1").getD "0" = "0" then "1" else "0"))

/-- `toggle_valve`: KeyError unless the name is a known channel starting with
`'v'`; otherwise flip `'0' ↔` anything else and delegate (the direct read
`self.state[valve_name]` is total under the guard). -/
def toggle_valve (f : Fridge) (now : Nat) (valve_name : String) :
    Except SetError Fridge :=
  if (lookupS f.state valve_name).isNone ∨ ¬ valve_name.startsWith "v" then
    Except.error SetError.unknownChannel
  else
    set_channel f now valve_name
      (PyVal.str (if (lookupS f.state valve_name).getD "0" = "0" then "1" else "0"))

/-- `toggle_heat_switch`: like `toggle_valve` with the `'hs'` name check. -/
def toggle_heat_switch (f : Fridge) (now : Nat) (hs_name : String) :
    Except SetError Fridge :=
  if (lookupS f.state hs_name).isNone ∨ ¬ hs_name.startsWith "hs" then
    Except.error SetError.unknownChannel
  else
    set_channel f now hs_name
      (PyVal.str (if (lookupS f.state hs_name).getD "0" = "0" then "1" else "0"))

/-! ### Event classification -/

/-- `EVENT_MARKERS`: the fixed pattern table; frozenset keys are modelled as
duplicate-free association lists compared up to set equality. -/
def EVENT_MARKERS : List (List (String × String) × String) :=
  [([("hs-still", "1"), ("hs-mc", "1"), ("pulsetube", "1")], "Cooldown script started"),
   ([("ext", "0"), ("pulsetube", "0"), ("v13", "1"), ("v9", "0"), ("turbo1", "0")],
     "Warmup script started"),
   ([("pulsetube", "0"), ("v13", "1"), ("v9", "0"), ("turbo1", "0")],
     "Warmup script started"),
   ([("pulsetube", "0")], "Pulsetube manual stop"),
   ([("pulsetube", "1")], "Pulsetube manual start"),
   ([("compressor", "1"), ("v9", "1"), ("v7", "1"), ("v6", "1"), ("v5", "1")],
     "Condensing script started")]

/-- Set equality of duplicate-free association lists: frozenset equality. -/
def setEq (a b : List (String × String)) : Bool :=
  decide (∀ x ∈ a, x ∈ b) && decide (∀ x ∈ b, x ∈ a)

/-- The diff `{k: cur[k] for k in cur if cur[k] != prev.get(k, None)}`
between two consecutive state rows. -/
def diffRows (cur prev : StateRow) : List (String × String) :=
  cur.fields.filter (fun kv => lookupS prev.fields kv.1 != some kv.2)

/-- `change_key in EVENT_MARKERS` followed by the table lookup. -/
def lookupMarker (change : List (String × String)) : Option String :=
  (EVENT_MARKERS.find? (fun kv => setEq kv.1 change)).map Prod.snd

/-- `strptime` applied to the `(date, time)` columns of a state row. -/
def parseRowTime (r : StateRow) : Nat := (r.date * 86400 + r.time) * usPerSec

/-- The backward scan of `generate_alert_messages` (lines 283-302) over the
reversed state log (newest first): stop at the first row not newer than the
watermark; skip the diff for the very first log entry; collect pattern hits
newest-first. -/
def scanRev (wm : Nat) : List StateRow → List String
  | [] => []
  | r :: rest =>
    if parseRowTime r ≤ wm then []
    else
      match rest with
      | [] => []
      | prev :: _ =>
        match lookupMarker (diffRows r prev) with
        | some msg => msg :: scanRev wm rest
        | none => scanRev wm rest

/-- `generate_alert_messages`: the harvested messages together with the
post-call instance (the watermark advanced to the parsed time of the latest
state row, when one exists). -/
def generate_alert_messages (f : Fridge) : List String × Fridge :=
  let events := scanRev f.last_event_check_time f.state_log.reverse
  match f.state_log.getLast? with
  | some r => (events, { f with last_event_check_time := parseRowTime r })
  | none => (events, f)

/-! ### Queries -/

/-- `get_state(depth)`: negative indexing `log[-1-depth]` with the clamp to
the oldest entry when the depth exceeds the history; `none` models the
`IndexError` on an empty log (unreachable after construction). -/
def get_state (f : Fridge) (depth : Nat) : Option StateRow :=
  if f.state_log.length < depth + 1 then f.state_log[0]?
  else f.state_log[f.state_log.length - 1 - depth]?

/-- `dict_state(depth)`: the channel pairs of the row plus the re-parsed
timestamp. -/
def dict_state (f : Fridge) (depth : Nat) :
    Option (List (String × String) × Nat) :=
  (get_state f depth).map (fun r => (r.fields, parseRowTime r))

/-- `get_status`: the last status row, or `None`. -/
def get_status (f : Fridge) : Option StatusRow := f.status_log.getLast?

/-- `get_last_pressures`: parse every pressure column of the last row back to
a float, or `None` on an empty log. -/
def get_last_pressures (f : Fridge) : Option (List ℚ) :=
  (f.pressure_log.getLast?).map (fun r => r.readings.map parse3e)

/-! ### Status formatting (`generate_state_message`, main-components part) -/

/-- The `on_off_symbol` dict with its `"⚪️"` default. -/
def on_off_symbol (v : String) : String :=
  if v = "0" then "⚪️" else if v = "1" then "🟢"
  else if v = "2" then "🟡" else "⚪️"

/-- The per-component display value (lines 340-359): the turbo glyph is
upgraded to transitional when its flag disagrees with the at-speed sensor,
the pulse-tube glyph when it is on while the compressor is off. -/
def displayVal (key stateVal compVal : String) (statusDict : List (String × ℚ)) :
    String :=
  let sv :=
    if key = "turbo1" then
      if (stateVal == "1") != decide (lookupQ statusDict "tc400setspdatt" = some 1)
      then "2" else stateVal
    else stateVal
  if key = "pulsetube" then
    if sv = "1" ∧ ¬ compVal = "1" then "2" else sv
  else sv

/-- The `main_status_parts` list of `generate_state_message`: one
`symbol ++ label` string per main component, computed from `dict_state(0)`
and the last status row (display only — the fridge is untouched). -/
def main_status_parts (f : Fridge) : List String :=
  let lastFields := ((get_state f 0).map StateRow.fields).getD []
  let statusDict := ((get_status f).map StatusRow.fields).getD []
  let compVal := (lookupS lastFields "compressor").getD "0"
  (List.zip ["scroll1", "scroll2", "turbo1", "compressor", "pulsetube"]
            ["scr1", "scr2", "tur1", "comp", "pt  "]).map
    (fun kl =>
      on_off_symbol (displayVal kl.1 ((lookupS lastFields kl.1).getD "0")
        compVal statusDict) ++ kl.2)

/-! ### Operation sequences (reachability) -/

/-- One externally triggered mutating call on the instance. -/
inductive Op where
  | setCh (now : Nat) (channel : String) (value : PyVal)
  | togglePulsetube (now : Nat)
  | toggleCompressor (now : Nat)
  | toggleTurbo (now : Nat)
  | toggleValve (now : Nat) (name : String)
  | toggleHeatSwitch (now : Nat) (name : String)
  | scanEvents
deriving Repr, DecidableEq

/-- A raised exception leaves the instance as it was. -/
def okOr (e : Except SetError Fridge) (f : Fridge) : Fridge :=
  match e with
  | Except.ok g => g
  | Except.error _ => f

def stepOp (f : Fridge) : Op → Fridge
  | Op.setCh now ch v => okOr (set_channel f now ch v) f
  | Op.togglePulsetube now => okOr (toggle_pulsetube f now) f
  | Op.toggleCompressor now => okOr (toggle_compressor f now) f
  | Op.toggleTurbo now => okOr (toggle_turbo f now) f
  | Op.toggleValve now name => okOr (toggle_valve f now name) f
  | Op.toggleHeatSwitch now name => okOr (toggle_heat_switch f now name) f
  | Op.scanEvents => (generate_alert_messages f).2

def runOps (f : Fridge) (ops : List Op) : Fridge := ops.foldl stepOp f

/-- The wall-clock instant an operation carries, if any. -/
def opTime : Op → Option Nat
  | Op.setCh now _ _ => some now
  | Op.togglePulsetube now => some now
  | Op.toggleCompressor now => some now
  | Op.toggleTurbo now => some now
  | Op.toggleValve now _ => some now
  | Op.toggleHeatSwitch now _ => some now
  | Op.scanEvents => none

/-! ### Timestamp lemmas -/

lemma parseRowTime_stamp (t : Nat) (fs : List (String × String)) :
    parseRowTime ⟨dateOf t, timeOf t, fs⟩ = truncSec t := by
  simp only [parseRowTime, dateOf, timeOf, truncSec, usPerDay, usPerSec]
  omega

lemma truncSec_le (t : Nat) : truncSec t ≤ t :=
  Nat.div_mul_le_self t usPerSec

lemma truncSec_mono {t t' : Nat} (h : t ≤ t') : truncSec t ≤ truncSec t' :=
  Nat.mul_le_mul_right _ (Nat.div_le_div_right h)

lemma truncSec_parseRowTime (r : StateRow) :
    truncSec (parseRowTime r) = parseRowTime r := by
  simp only [truncSec, parseRowTime, usPerSec]
  omega

/-! ### Association-list lemmas -/

lemma updateAssoc_keys (l : List (String × String)) (k v : String) :
    (updateAssoc l k v).map Prod.fst = l.map Prod.fst := by
  simp only [updateAssoc, List.map_map]
  congr 1
  funext p
  by_cases h : p.1 = k <;> simp [h]

lemma lookupS_cons (p : String × String) (t : List (String × String)) (k : String) :
    lookupS (p :: t) k =
      if (p.1 == k) = true then some p.2 else lookupS t k := by
  cases hb : (p.1 == k) <;> simp [lookupS, List.find?, hb]

lemma lookupS_updateAssoc_self (l : List (String × String)) (k v : String) :
    lookupS (updateAssoc l k v) k = (lookupS l k).map (fun _ => v) := by
  induction l with
  | nil => rfl
  | cons p t ih =>
    cases hb : (p.1 == k)
    · have hne : ¬ ((p.1 == k) = true) := by simp [hb]
      have hkp : ¬ p.1 = k := by simpa using hb
      have hu : updateAssoc (p :: t) k v = p :: updateAssoc t k v := by
        simp [updateAssoc, hkp]
      rw [hu, lookupS_cons, if_neg hne, lookupS_cons, if_neg hne, ih]
    · have hk : p.1 = k := by simpa using hb
      have hu : updateAssoc (p :: t) k v = (p.1, v) :: updateAssoc t k v := by
        simp [updateAssoc, hk]
      rw [hu, lookupS_cons, lookupS_cons, if_pos hb, if_pos hb]
      rfl

lemma lookupS_eq_none_iff (l : List (String × String)) (k : String) :
    lookupS l k = none ↔ k ∉ l.map Prod.fst := by
  induction l with
  | nil => simp [lookupS]
  | cons p t ih =>
    rw [lookupS_cons]
    cases hb : (p.1 == k)
    · have hk2 : ¬ k = p.1 := fun hkk => by simp [hkk] at hb
      simp [ih, hk2]
    · have hk : p.1 = k := by simpa using hb
      simp [hk]

lemma lookupS_isSome_of_mem {l : List (String × String)} {k : String}
    (h : k ∈ l.map Prod.fst) : lookupS l k ≠ none := by
  rw [ne_eq, lookupS_eq_none_iff]
  simpa using h

/-! ### `commitChange` projections -/

lemma commitChange_state (f : Fridge) (now : Nat) (ch v : String) :
    (commitChange f now ch v).state = updateAssoc f.state ch v := rfl

lemma commitChange_sensors (f : Fridge) (now : Nat) (ch v : String) :
    (commitChange f now ch v).sensors = applySensors ch v f.sensors := rfl

lemma commitChange_pressures (f : Fridge) (now : Nat) (ch v : String) :
    (commitChange f now ch v).pressures = applyPressures ch v f.pressures := rfl

lemma commitChange_state_log (f : Fridge) (now : Nat) (ch v : String) :
    (commitChange f now ch v).state_log =
      f.state_log ++ [⟨dateOf now, timeOf now, updateAssoc f.state ch v⟩] := rfl

lemma commitChange_status_log (f : Fridge) (now : Nat) (ch v : String) :
    (commitChange f now ch v).status_log =
      f.status_log ++ [⟨dateOf now, timeOf now, statusFields (applySensors ch v f.sensors)⟩] := rfl

lemma commitChange_pressure_log (f : Fridge) (now : Nat) (ch v : String) :
    (commitChange f now ch v).pressure_log =
      f.pressure_log ++
        [⟨dateOf now, timeOf now, (padTo6 (applyPressures ch v f.pressures)).map fmt3e⟩] := rfl

lemma commitChange_wm (f : Fridge) (now : Nat) (ch v : String) :
    (commitChange f now ch v).last_event_check_time = f.last_event_check_time := rfl

/-! ### `set_channel` case analysis -/

lemma set_channel_eq_error_unknown_iff (f : Fridge) (now : Nat) (ch : String) (v : PyVal) :
    set_channel f now ch v = Except.error SetError.unknownChannel ↔
      lookupS f.state ch = none := by
  unfold set_channel
  split
  · next h => simp_all [Option.isNone_iff_eq_none]
  · next h =>
    simp only [Option.isNone_iff_eq_none] at h
    split
    · simp [h]
    · split <;> simp [h]

lemma set_channel_eq_error_invalid_iff (f : Fridge) (now : Nat) (ch : String) (v : PyVal) :
    set_channel f now ch v = Except.error SetError.invalidValue ↔
      lookupS f.state ch ≠ none ∧
        ¬(pyStr v = "0" ∨ pyStr v = "1" ∨ pyStr v = "2") := by
  unfold set_channel
  split
  · next h => simp_all [Option.isNone_iff_eq_none]
  · next h =>
    simp only [Option.isNone_iff_eq_none] at h
    split
    · next hv => simp [h, hv]
    · next hv => split <;> simp [h, hv]

lemma set_channel_noop (f : Fridge) (now : Nat) (ch : String) (v : PyVal)
    (h1 : lookupS f.state ch = some (pyStr v))
    (h2 : pyStr v = "0" ∨ pyStr v = "1" ∨ pyStr v = "2") :
    set_channel f now ch v = Except.ok f := by
  have hA : ¬ (lookupS f.state ch).isNone = true := by simp [h1]
  have hB : ¬¬(pyStr v = "0" ∨ pyStr v = "1" ∨ pyStr v = "2") := not_not_intro h2
  unfold set_channel
  rw [if_neg hA, if_neg hB, if_pos h1]

lemma set_channel_commit (f : Fridge) (now : Nat) (ch : String) (v : PyVal)
    (h1 : lookupS f.state ch ≠ none)
    (h2 : pyStr v = "0" ∨ pyStr v = "1" ∨ pyStr v = "2")
    (h3 : lookupS f.state ch ≠ some (pyStr v)) :
    set_channel f now ch v = Except.ok (commitChange f now ch (pyStr v)) := by
  have hA : ¬ (lookupS f.state ch).isNone = true := by
    simpa [Option.isNone_iff_eq_none] using h1
  have hB : ¬¬(pyStr v = "0" ∨ pyStr v = "1" ∨ pyStr v = "2") := not_not_intro h2
  unfold set_channel
  rw [if_neg hA, if_neg hB, if_neg h3]

lemma set_channel_ok_cases {f g : Fridge} {now : Nat} {ch : String} {v : PyVal}
    (h : set_channel f now ch v = Except.ok g) :
    g = f ∨ g = commitChange f now ch (pyStr v) := by
  unfold set_channel at h
  split at h
  · exact absurd h (by simp)
  · split at h
    · exact absurd h (by simp)
    · split at h
      · exact Or.inl (by simpa using h.symm)
      · exact Or.inr (by simpa using h.symm)

/-! ### Reachability invariant -/

def stStamp (r : StateRow) : Nat × Nat := (r.date, r.time)

def suStamp (r : StatusRow) : Nat × Nat := (r.date, r.time)

def prStamp (r : PressureRow) : Nat × Nat := (r.date, r.time)

/-- The three histories advance together: pointwise equal `(date, time)`
stamps (hence equal lengths) and at least the seeded snapshot. -/
def logsAligned (f : Fridge) : Prop :=
  f.state_log.map stStamp = f.status_log.map suStamp ∧
  f.state_log.map stStamp = f.pressure_log.map prStamp ∧
  f.state_log ≠ []

/-- Invariant of every reachable instance: fixed channel keys, aligned logs,
the last state row mirroring the live channel dict, the last pressure row
being the formatted live pressures, exactly six readings, and every reading
a power of ten. -/
def FridgeInv (f : Fridge) : Prop :=
  f.state.map Prod.fst = channelNames ∧
  logsAligned f ∧
  (f.state_log.getLast?).map StateRow.fields = some f.state ∧
  (f.pressure_log.getLast?).map PressureRow.readings =
    some (f.pressures.map fmt3e) ∧
  f.pressures.length = 6 ∧
  (∀ p ∈ f.pressures, ∃ j : ℤ, p = (10 : ℚ) ^ j)

lemma padTo6_eq_self {ps : List ℚ} (h : ps.length = 6) : padTo6 ps = ps := by
  have ht : ps.take 6 = ps := List.take_of_length_le (by omega)
  simp [padTo6, ht, h]

lemma applyPressures_length (ch v : String) (ps : List ℚ) :
    (applyPressures ch v ps).length = ps.length := by
  unfold applyPressures
  split
  · split <;> simp
  · rfl

lemma baseline_pressure_pow : (1 / 1000 : ℚ) = (10 : ℚ) ^ (-3 : ℤ) := by
  rw [zpow_neg]
  norm_num

lemma FridgeInv_init (t0 : Nat) : FridgeInv (initFridge t0) := by
  refine ⟨rfl, ⟨rfl, rfl, by simp [initFridge, log_state, log_status, log_pressures]⟩,
    rfl, rfl, rfl, ?_⟩
  intro p hp
  have hp' : p = 1 / 1000 := List.eq_of_mem_replicate hp
  exact ⟨-3, by rw [hp', baseline_pressure_pow]⟩

lemma getLast?_append_singleton {α : Type} (l : List α) (a : α) :
    (l ++ [a]).getLast? = some a := by
  simp

lemma logsAligned_commit (f : Fridge) (now : Nat) (ch v : String)
    (h : logsAligned f) : logsAligned (commitChange f now ch v) := by
  obtain ⟨h1, h2, _⟩ := h
  refine ⟨?_, ?_, ?_⟩
  · rw [commitChange_state_log, commitChange_status_log, List.map_append,
      List.map_append, h1]
    rfl
  · rw [commitChange_state_log, commitChange_pressure_log, List.map_append,
      List.map_append, h2]
    rfl
  · rw [commitChange_state_log]
    simp

lemma FridgeInv_commit (f : Fridge) (now : Nat) (ch v : String) (h : FridgeInv f) :
    FridgeInv (commitChange f now ch v) := by
  obtain ⟨hk, hal, hst, hpr, hlen, hpow⟩ := h
  refine ⟨?_, logsAligned_commit f now ch v hal, ?_, ?_, ?_, ?_⟩
  · rw [commitChange_state, updateAssoc_keys]
    exact hk
  · rw [commitChange_state_log, getLast?_append_singleton, commitChange_state]
    rfl
  · rw [commitChange_pressure_log, getLast?_append_singleton, commitChange_pressures,
      padTo6_eq_self (by rw [applyPressures_length]; exact hlen)]
    rfl
  · rw [commitChange_pressures, applyPressures_length]
    exact hlen
  · rw [commitChange_pressures]
    intro p hp
    unfold applyPressures at hp
    split at hp
    · split at hp
      · obtain ⟨q, hq, rfl⟩ := List.mem_map.1 hp
        obtain ⟨j, rfl⟩ := hpow q hq
        by_cases hq0 : (0 : ℚ) < (10 : ℚ) ^ j
        · refine ⟨j - 1, ?_⟩
          rw [if_pos hq0, div_eq_mul_inv, ← zpow_sub_one₀ (by norm_num : (10 : ℚ) ≠ 0)]
        · exact ⟨j, by rw [if_neg hq0]⟩
      · obtain ⟨q, hq, rfl⟩ := List.mem_map.1 hp
        obtain ⟨j, rfl⟩ := hpow q hq
        exact ⟨j + 1, by rw [← zpow_add_one₀ (by norm_num : (10 : ℚ) ≠ 0)]⟩
    · exact hpow p hp

lemma FridgeInv_okOr_set (f : Fridge) (now : Nat) (ch : String) (v : PyVal)
    (h : FridgeInv f) : FridgeInv (okOr (set_channel f now ch v) f) := by
  cases he : set_channel f now ch v with
  | error e => simpa [okOr] using h
  | ok g =>
    rcases set_channel_ok_cases he with rfl | rfl
    · simpa [okOr] using h
    · simpa [okOr] using FridgeInv_commit f now ch (pyStr v) h

lemma FridgeInv_gen (f : Fridge) (h : FridgeInv f) : FridgeInv (generate_alert_messages f).2 := by
  unfold generate_alert_messages
  cases hg : f.state_log.getLast?
  · exact h
  · exact h

lemma FridgeInv_step (f : Fridge) (op : Op) (h : FridgeInv f) : FridgeInv (stepOp f op) := by
  cases op with
  | setCh now ch v => exact FridgeInv_okOr_set _ _ _ _ h
  | togglePulsetube now =>
    simp only [stepOp, toggle_pulsetube]
    exact FridgeInv_okOr_set _ _ _ _ h
  | toggleCompressor now =>
    simp only [stepOp, toggle_compressor]
    exact FridgeInv_okOr_set _ _ _ _ h
  | toggleTurbo now =>
    simp only [stepOp, toggle_turbo]
    exact FridgeInv_okOr_set _ _ _ _ h
  | toggleValve now name =>
    simp only [stepOp]
    unfold toggle_valve
    split
    · simpa [okOr] using h
    · exact FridgeInv_okOr_set _ _ _ _ h
  | toggleHeatSwitch now name =>
    simp only [stepOp]
    unfold toggle_heat_switch
    split
    · simpa [okOr] using h
    · exact FridgeInv_okOr_set _ _ _ _ h
  | scanEvents => exact FridgeInv_gen f h

lemma FridgeInv_run (ops : List Op) (f : Fridge) (h : FridgeInv f) : FridgeInv (runOps f ops) := by
  induction ops generalizing f with
  | nil => exact h
  | cons op rest ih => exact ih _ (FridgeInv_step f op h)

lemma FridgeInv_reachable (t0 : Nat) (ops : List Op) :
    FridgeInv (runOps (initFridge t0) ops) :=
  FridgeInv_run ops _ (FridgeInv_init t0)

/-! ### Correctness of the formatting exponent and the parse round-trip -/

lemma log10Aux_spec : ∀ fuel n, 1 ≤ n → n ≤ fuel →
    10 ^ log10Aux fuel n ≤ n ∧ n < 10 ^ (log10Aux fuel n + 1) := by
  intro fuel
  induction fuel with
  | zero => intro n h1 h2; exact absurd (le_trans h1 h2) (by norm_num)
  | succ fuel ih =>
    intro n h1 h2
    rw [log10Aux]
    by_cases hlt : n < 10
    · rw [if_pos hlt]
      exact ⟨by simpa using h1, by simpa using hlt⟩
    · rw [if_neg hlt]
      have hd1 : 1 ≤ n / 10 := by omega
      have hd2 : n / 10 ≤ fuel := by omega
      obtain ⟨ha, hb⟩ := ih (n / 10) hd1 hd2
      constructor
      · have h10 : 10 ^ log10Aux fuel (n / 10) * 10 ≤ n / 10 * 10 :=
          Nat.mul_le_mul_right 10 ha
        have hdm : n / 10 * 10 ≤ n := Nat.div_mul_le_self n 10
        rw [pow_succ]
        exact le_trans h10 hdm
      · have h1' : n < (n / 10 + 1) * 10 := by omega
        have h3' : (n / 10 + 1) * 10 ≤ 10 ^ (log10Aux fuel (n / 10) + 1) * 10 :=
          Nat.mul_le_mul_right 10 hb
        calc n < (n / 10 + 1) * 10 := h1'
          _ ≤ 10 ^ (log10Aux fuel (n / 10) + 1) * 10 := h3'
          _ = 10 ^ (log10Aux fuel (n / 10) + 1 + 1) := (pow_succ 10 _).symm

lemma nlog10_pow (k : Nat) : nlog10 (10 ^ k) = k := by
  have h1 : 1 ≤ 10 ^ k := Nat.one_le_pow _ _ (by norm_num)
  obtain ⟨ha, hb⟩ := log10Aux_spec (10 ^ k) (10 ^ k) h1 le_rfl
  have hak : log10Aux (10 ^ k) (10 ^ k) ≤ k :=
    (Nat.pow_le_pow_iff_right (by norm_num)).1 ha
  have hka : k < log10Aux (10 ^ k) (10 ^ k) + 1 :=
    (Nat.pow_lt_pow_iff_right (by norm_num)).1 hb
  show log10Aux (10 ^ k) (10 ^ k) = k
  omega

lemma clog10Aux_of_lt_two (fuel n : Nat) (h : n < 2) : clog10Aux fuel n = 0 := by
  cases fuel with
  | zero => rfl
  | succ fuel => rw [clog10Aux, if_neg (by omega)]

lemma clog10Aux_spec : ∀ fuel n, 2 ≤ n → n ≤ fuel →
    1 ≤ clog10Aux fuel n ∧ 10 ^ (clog10Aux fuel n - 1) < n ∧
      n ≤ 10 ^ clog10Aux fuel n := by
  intro fuel
  induction fuel with
  | zero => intro n h1 h2; exact absurd (le_trans h1 h2) (by norm_num)
  | succ fuel ih =>
    intro n h1 h2
    rw [clog10Aux, if_pos h1]
    by_cases hm : (n + 9) / 10 < 2
    · have h0 : clog10Aux fuel ((n + 9) / 10) = 0 := clog10Aux_of_lt_two _ _ hm
      rw [h0]
      have hn10 : n ≤ 10 := by omega
      exact ⟨le_rfl, by simpa using h1, by simpa using hn10⟩
    · have hm2 : 2 ≤ (n + 9) / 10 := by omega
      have hmfuel : (n + 9) / 10 ≤ fuel := by omega
      obtain ⟨hc1, hc2, hc3⟩ := ih _ hm2 hmfuel
      refine ⟨by omega, ?_, ?_⟩
      · have e1 : 10 ^ clog10Aux fuel ((n + 9) / 10) =
            10 ^ (clog10Aux fuel ((n + 9) / 10) - 1) * 10 := by
          have he : clog10Aux fuel ((n + 9) / 10) - 1 + 1 =
              clog10Aux fuel ((n + 9) / 10) := by omega
          rw [← he, pow_succ, he]
        have e3 : (10 ^ (clog10Aux fuel ((n + 9) / 10) - 1) + 1) * 10 ≤
            (n + 9) / 10 * 10 := Nat.mul_le_mul_right 10 hc2
        have e4 : (n + 9) / 10 * 10 ≤ n + 9 := Nat.div_mul_le_self _ 10
        simp only [Nat.add_sub_cancel]
        omega
      · have e6 : (n + 9) / 10 * 10 ≤ 10 ^ clog10Aux fuel ((n + 9) / 10) * 10 :=
          Nat.mul_le_mul_right 10 hc3
        rw [pow_succ]
        omega

lemma nclog10_pow (k : Nat) : nclog10 (10 ^ k) = k := by
  cases k with
  | zero => rfl
  | succ k =>
    have h2 : 2 ≤ 10 ^ (k + 1) := by
      calc 2 ≤ 10 := by norm_num
        _ = 10 ^ 1 := (pow_one 10).symm
        _ ≤ 10 ^ (k + 1) := Nat.pow_le_pow_right (by norm_num) (by omega)
    obtain ⟨hc1, hc2, hc3⟩ := clog10Aux_spec (10 ^ (k + 1)) (10 ^ (k + 1)) h2 le_rfl
    have h3 : clog10Aux (10 ^ (k + 1)) (10 ^ (k + 1)) - 1 < k + 1 :=
      (Nat.pow_lt_pow_iff_right (by norm_num)).1 hc2
    have h4 : k + 1 ≤ clog10Aux (10 ^ (k + 1)) (10 ^ (k + 1)) :=
      (Nat.pow_le_pow_iff_right (by norm_num)).1 hc3
    show clog10Aux (10 ^ (k + 1)) (10 ^ (k + 1)) = k + 1
    omega

lemma qlog10_zpow (j : ℤ) : qlog10 ((10 : ℚ) ^ j) = j := by
  cases j with
  | ofNat n =>
    have hq : ((10 : ℚ) ^ (Int.ofNat n)) = ((10 ^ n : ℕ) : ℚ) := by
      rw [Int.ofNat_eq_coe, zpow_natCast]
      push_cast
      ring
    have h1 : (1 : ℚ) ≤ ((10 ^ n : ℕ) : ℚ) := by
      exact_mod_cast Nat.one_le_pow _ _ (by norm_num)
    rw [hq, qlog10, if_pos h1, Nat.floor_natCast, nlog10_pow]
    rfl
  | negSucc k =>
    have hone : (1 : ℚ) < 10 ^ (k + 1) := by
      apply one_lt_pow₀ (by norm_num)
      omega
    have hq : ((10 : ℚ) ^ (Int.negSucc k)) = ((10 : ℚ) ^ (k + 1))⁻¹ :=
      zpow_negSucc 10 k
    have hlt : ((10 : ℚ) ^ (k + 1))⁻¹ < 1 := by
      rw [inv_lt_one_iff₀]
      right
      exact hone
    rw [hq, qlog10, if_neg (by linarith), inv_inv]
    have hcast : ((10 : ℚ) ^ (k + 1)) = ((10 ^ (k + 1) : ℕ) : ℚ) := by
      push_cast
      ring
    rw [hcast, Nat.ceil_natCast, nclog10_pow]
    rw [Int.negSucc_eq]
    push_cast
    ring

lemma parse3e_fmt3e_zpow (j : ℤ) : parse3e (fmt3e ((10 : ℚ) ^ j)) = (10 : ℚ) ^ j := by
  have h0 : (0 : ℚ) < 10 ^ j := zpow_pos (by norm_num) j
  rw [fmt3e, if_pos h0, qlog10_zpow, div_self (ne_of_gt h0), one_mul]
  rw [show ((1000 : ℚ)) = ((1000 : ℤ) : ℚ) by norm_num, round_intCast]
  rw [parse3e]
  norm_num

lemma get_last_pressures_of_inv (f : Fridge) (h : FridgeInv f) :
    get_last_pressures f = some f.pressures := by
  obtain ⟨-, -, -, hpr, -, hpow⟩ := h
  cases hg : f.pressure_log.getLast? with
  | none => rw [hg] at hpr; simp at hpr
  | some r =>
    rw [hg] at hpr
    have hr : r.readings = f.pressures.map fmt3e := by simpa using hpr
    rw [get_last_pressures, hg]
    have hmap : ∀ p ∈ f.pressures, (parse3e ∘ fmt3e) p = p := by
      intro p hp
      obtain ⟨j, rfl⟩ := hpow p hp
      exact parse3e_fmt3e_zpow j
    simp only [Option.map_some', Option.some.injEq]
    rw [hr, List.map_map, List.map_congr_left hmap]
    simp

/-! ### Watermark machinery -/

/-- The re-parsed timestamp of the latest state row (0 when no history). -/
def parseLast (f : Fridge) : Nat :=
  ((f.state_log.getLast?).map parseRowTime).getD 0

/-- Clock discipline along a run whose wall-clock inputs never exceeded `T`:
nonempty history, watermark and latest row time at most `T`, and the
second-truncated watermark at most the latest row time. -/
def WmInv (f : Fridge) (T : Nat) : Prop :=
  f.state_log ≠ [] ∧ f.last_event_check_time ≤ T ∧ parseLast f ≤ T ∧
  truncSec f.last_event_check_time ≤ parseLast f

lemma parseLast_init (t0 : Nat) : parseLast (initFridge t0) = truncSec t0 := by
  simp [parseLast, initFridge, log_state, log_status, log_pressures,
    parseRowTime_stamp]

lemma WmInv_init (t0 : Nat) : WmInv (initFridge t0) t0 := by
  refine ⟨by simp [initFridge, log_state, log_status, log_pressures], le_rfl, ?_, ?_⟩
  · rw [parseLast_init]
    exact truncSec_le t0
  · rw [parseLast_init]
    exact le_rfl

lemma parseLast_commit (f : Fridge) (now : Nat) (ch v : String) :
    parseLast (commitChange f now ch v) = truncSec now := by
  rw [parseLast, commitChange_state_log, getLast?_append_singleton]
  simp [parseRowTime_stamp]

lemma WmInv_mono {f : Fridge} {T T' : Nat} (h : WmInv f T) (hT : T ≤ T') :
    WmInv f T' :=
  ⟨h.1, le_trans h.2.1 hT, le_trans h.2.2.1 hT, h.2.2.2⟩

lemma WmInv_commit {f : Fridge} {T : Nat} (now : Nat) (ch v : String)
    (h : WmInv f T) (hT : T ≤ now) : WmInv (commitChange f now ch v) now := by
  obtain ⟨h1, h2, h3, h4⟩ := h
  refine ⟨?_, ?_, ?_, ?_⟩
  · rw [commitChange_state_log]
    simp
  · rw [commitChange_wm]
    exact le_trans h2 hT
  · rw [parseLast_commit]
    exact truncSec_le now
  · rw [commitChange_wm, parseLast_commit]
    exact truncSec_mono (le_trans h2 hT)

lemma WmInv_okOr_set {f : Fridge} {T : Nat} (now : Nat) (ch : String) (v : PyVal)
    (h : WmInv f T) (hT : T ≤ now) :
    WmInv (okOr (set_channel f now ch v) f) now := by
  cases he : set_channel f now ch v with
  | error e => exact WmInv_mono h hT
  | ok g =>
    rcases set_channel_ok_cases he with rfl | rfl
    · exact WmInv_mono h hT
    · exact WmInv_commit now ch (pyStr v) h hT

lemma gen_wm (f : Fridge) (h : f.state_log ≠ []) :
    (generate_alert_messages f).2.last_event_check_time = parseLast f ∧
    (generate_alert_messages f).2.state_log = f.state_log := by
  unfold generate_alert_messages
  cases hg : f.state_log.getLast? with
  | none => exact absurd (List.getLast?_eq_none_iff.1 hg) h
  | some r => exact ⟨by simp [parseLast, hg], rfl⟩

lemma truncSec_parseLast (f : Fridge) (h : f.state_log ≠ []) :
    truncSec (parseLast f) = parseLast f := by
  cases hg : f.state_log.getLast? with
  | none => exact absurd (List.getLast?_eq_none_iff.1 hg) h
  | some r =>
    rw [parseLast, hg]
    simp [truncSec_parseRowTime]

lemma WmInv_gen {f : Fridge} {T : Nat} (h : WmInv f T) :
    WmInv (generate_alert_messages f).2 T := by
  obtain ⟨h1, h2, h3, h4⟩ := h
  obtain ⟨hw, hl⟩ := gen_wm f h1
  have hpl : parseLast (generate_alert_messages f).2 = parseLast f := by
    rw [parseLast, hl, ← parseLast]
  refine ⟨by rw [hl]; exact h1, by rw [hw]; exact h3, by rw [hpl]; exact h3, ?_⟩
  rw [hw, hpl, truncSec_parseLast f h1]

lemma WmInv_step {f : Fridge} {T : Nat} (op : Op) (h : WmInv f T)
    (ht : ∀ t, opTime op = some t → T ≤ t) :
    WmInv (stepOp f op) ((opTime op).getD T) := by
  cases op with
  | setCh now ch v => exact WmInv_okOr_set now ch v h (ht now rfl)
  | togglePulsetube now =>
    simp only [stepOp, toggle_pulsetube, opTime, Option.getD_some]
    exact WmInv_okOr_set now _ _ h (ht now rfl)
  | toggleCompressor now =>
    simp only [stepOp, toggle_compressor, opTime, Option.getD_some]
    exact WmInv_okOr_set now _ _ h (ht now rfl)
  | toggleTurbo now =>
    simp only [stepOp, toggle_turbo, opTime, Option.getD_some]
    exact WmInv_okOr_set now _ _ h (ht now rfl)
  | toggleValve now name =>
    simp only [stepOp, opTime, Option.getD_some]
    unfold toggle_valve
    split
    · exact WmInv_mono h (ht now rfl)
    · exact WmInv_okOr_set now _ _ h (ht now rfl)
  | toggleHeatSwitch now name =>
    simp only [stepOp, opTime, Option.getD_some]
    unfold toggle_heat_switch
    split
    · exact WmInv_mono h (ht now rfl)
    · exact WmInv_okOr_set now _ _ h (ht now rfl)
  | scanEvents => exact WmInv_gen h

lemma WmInv_run : ∀ (ops : List Op) (f : Fridge) (T : Nat), WmInv f T →
    List.Chain' (· ≤ ·) (T :: ops.filterMap opTime) →
    ∃ T', WmInv (runOps f ops) T' := by
  intro ops
  induction ops with
  | nil => exact fun f T h _ => ⟨T, h⟩
  | cons op rest ih =>
    intro f T h hchain
    cases hot : opTime op with
    | some t =>
      have hfm : (op :: rest).filterMap opTime = t :: rest.filterMap opTime := by
        simp [List.filterMap_cons, hot]
      rw [hfm] at hchain
      have hTt : T ≤ t := (List.chain'_cons.1 hchain).1
      have hstep := WmInv_step op h
        (fun t' ht' => by rw [hot] at ht'; injection ht' with he; rw [← he]; exact hTt)
      rw [hot] at hstep
      simp only [Option.getD_some] at hstep
      exact ih _ t hstep (List.chain'_cons.1 hchain).2
    | none =>
      have hfm : (op :: rest).filterMap opTime = rest.filterMap opTime := by
        simp [List.filterMap_cons, hot]
      rw [hfm] at hchain
      have hstep := WmInv_step op h (fun t' ht' => by rw [hot] at ht'; cases ht')
      rw [hot] at hstep
      simp only [Option.getD_none] at hstep
      exact ih _ T hstep hchain

lemma wm_okOr_set (f : Fridge) (now : Nat) (ch : String) (v : PyVal) :
    (okOr (set_channel f now ch v) f).last_event_check_time =
      f.last_event_check_time := by
  cases he : set_channel f now ch v with
  | error e => rfl
  | ok g =>
    rcases set_channel_ok_cases he with rfl | rfl
    · rfl
    · exact commitChange_wm f now ch (pyStr v)

lemma wm_stepOp_trunc_mono (f : Fridge) (op : Op)
    (h : truncSec f.last_event_check_time ≤ parseLast f) :
    truncSec f.last_event_check_time ≤
      truncSec ((stepOp f op).last_event_check_time) := by
  cases op with
  | setCh now ch v => rw [stepOp, wm_okOr_set]
  | togglePulsetube now =>
    simp only [stepOp, toggle_pulsetube]
    rw [wm_okOr_set]
  | toggleCompressor now =>
    simp only [stepOp, toggle_compressor]
    rw [wm_okOr_set]
  | toggleTurbo now =>
    simp only [stepOp, toggle_turbo]
    rw [wm_okOr_set]
  | toggleValve now name =>
    simp only [stepOp]
    unfold toggle_valve
    split
    · exact le_rfl
    · rw [wm_okOr_set]
  | toggleHeatSwitch now name =>
    simp only [stepOp]
    unfold toggle_heat_switch
    split
    · exact le_rfl
    · rw [wm_okOr_set]
  | scanEvents =>
    by_cases hne : f.state_log = []
    · have : (generate_alert_messages f).2 = f := by
        unfold generate_alert_messages
        rw [hne]
        rfl
      simp only [stepOp, this]
      exact le_rfl
    · obtain ⟨hw, -⟩ := gen_wm f hne
      simp only [stepOp]
      rw [hw, truncSec_parseLast f hne]
      exact h

lemma runOps_append (f : Fridge) (ops : List Op) (op : Op) :
    runOps f (ops ++ [op]) = stepOp (runOps f ops) op := by
  simp [runOps, List.foldl_append]

/-! ### Event-scan lemmas -/

/-- The diff of the condensing-script pattern (last entry of `EVENT_MARKERS`). -/
def condensingKey : List (String × String) :=
  [("compressor", "1"), ("v9", "1"), ("v7", "1"), ("v6", "1"), ("v5", "1")]

lemma setEq_true_iff (a b : List (String × String)) :
    setEq a b = true ↔ (∀ x ∈ a, x ∈ b) ∧ (∀ x ∈ b, x ∈ a) := by
  simp [setEq]

lemma find?_cons {α : Type} (p : α → Bool) (a : α) (l : List α) :
    List.find? p (a :: l) = if p a = true then some a else List.find? p l := by
  by_cases h : p a = true
  · rw [if_pos h, List.find?_cons_of_pos _ h]
  · rw [if_neg h, List.find?_cons_of_neg _ h]

lemma lookupMarker_condensing (c : List (String × String))
    (h : setEq c condensingKey = true) :
    lookupMarker c = some "Condensing script started" := by
  obtain ⟨hcK, hKc⟩ := (setEq_true_iff _ _).1 h
  have e1 : setEq [("hs-still", "1"), ("hs-mc", "1"), ("pulsetube", "1")] c = false := by
    simp only [setEq, Bool.and_eq_false_iff, decide_eq_false_iff_not]
    left
    intro hall
    have hmem := hcK _ (hall ("hs-still", "1") (by simp))
    simp [condensingKey] at hmem
  have e2 : setEq [("ext", "0"), ("pulsetube", "0"), ("v13", "1"), ("v9", "0"),
      ("turbo1", "0")] c = false := by
    simp only [setEq, Bool.and_eq_false_iff, decide_eq_false_iff_not]
    left
    intro hall
    have hmem := hcK _ (hall ("ext", "0") (by simp))
    simp [condensingKey] at hmem
  have e3 : setEq [("pulsetube", "0"), ("v13", "1"), ("v9", "0"), ("turbo1", "0")]
      c = false := by
    simp only [setEq, Bool.and_eq_false_iff, decide_eq_false_iff_not]
    left
    intro hall
    have hmem := hcK _ (hall ("pulsetube", "0") (by simp))
    simp [condensingKey] at hmem
  have e4 : setEq [("pulsetube", "0")] c = false := by
    simp only [setEq, Bool.and_eq_false_iff, decide_eq_false_iff_not]
    left
    intro hall
    have hmem := hcK _ (hall ("pulsetube", "0") (by simp))
    simp [condensingKey] at hmem
  have e5 : setEq [("pulsetube", "1")] c = false := by
    simp only [setEq, Bool.and_eq_false_iff, decide_eq_false_iff_not]
    left
    intro hall
    have hmem := hcK _ (hall ("pulsetube", "1") (by simp))
    simp [condensingKey] at hmem
  have e6 : setEq condensingKey c = true := (setEq_true_iff _ _).2 ⟨hKc, hcK⟩
  unfold lookupMarker EVENT_MARKERS
  simp only [find?_cons]
  rw [show ([("compressor", "1"), ("v9", "1"), ("v7", "1"), ("v6", "1"),
    ("v5", "1")] : List (String × String)) = condensingKey from rfl]
  simp [e1, e2, e3, e4, e5, e6]

lemma scanRev_stop (wm : Nat) (r : StateRow) (rest : List StateRow)
    (h : parseRowTime r ≤ wm) : scanRev wm (r :: rest) = [] := by
  rw [scanRev.eq_def]
  dsimp only
  rw [if_pos h]

lemma scanRev_hit (wm : Nat) (r prev : StateRow) (rest : List StateRow)
    (msg : String) (h1 : ¬ parseRowTime r ≤ wm)
    (h2 : lookupMarker (diffRows r prev) = some msg) :
    scanRev wm (r :: prev :: rest) = msg :: scanRev wm (prev :: rest) := by
  rw [scanRev.eq_def]
  dsimp only
  rw [if_neg h1, h2]

lemma gen_events_eq (f : Fridge) :
    (generate_alert_messages f).1 =
      scanRev f.last_event_check_time f.state_log.reverse := by
  unfold generate_alert_messages
  cases f.state_log.getLast? <;> rfl

lemma parseLast_concat (f : Fridge) (l : List StateRow) (a : StateRow)
    (h : f.state_log = l ++ [a]) : parseLast f = parseRowTime a := by
  rw [parseLast, h, getLast?_append_singleton]
  rfl

/-- An immediately repeated scan finds nothing: the watermark equals the
latest parsed row time, so the backward walk stops at the first row. -/
lemma gen_after_gen (f : Fridge) (h : f.state_log ≠ []) :
    (generate_alert_messages ((generate_alert_messages f).2)).1 = [] := by
  obtain ⟨l, a, hla⟩ : ∃ l a, f.state_log = l ++ [a] := by
    rcases (List.eq_nil_or_concat f.state_log) with hnil | ⟨l, a, hc⟩
    · exact absurd hnil h
    · exact ⟨l, a, by rw [hc, List.concat_eq_append]⟩
  obtain ⟨hw, hl⟩ := gen_wm f h
  rw [gen_events_eq, hw, hl, hla, List.reverse_append, parseLast_concat f l a hla]
  simp only [List.reverse_cons, List.reverse_nil, List.nil_append,
    List.singleton_append, List.cons_append]
  exact scanRev_stop _ _ _ le_rfl

/-! ### Query lemmas -/

lemma get_state_zero (f : Fridge) (h : f.state_log ≠ []) :
    get_state f 0 = f.state_log.getLast? := by
  have hlen : 0 < f.state_log.length := List.length_pos.2 h
  rw [get_state, if_neg (by omega), List.getLast?_eq_getElem?]
  norm_num

/-! ### Claim theorems -/

/-- C2: for every known channel and valid value, if the value (after
string/numeric normalization) already equals the channel's current value,
`set_channel` is a no-op: it returns the unchanged instance — no history
entry is appended and no channel, sensor, or pressure value changes. -/
theorem C2_set_channel_idempotent (f : Fridge) (now : Nat) (ch : String)
    (v : PyVal) (h1 : lookupS f.state ch = some (pyStr v))
    (h2 : pyStr v = "0" ∨ pyStr v = "1" ∨ pyStr v = "2") :
    set_channel f now ch v = Except.ok f :=
  set_channel_noop f now ch v h1 h2

/-- Witness for C2: setting `scroll1` (currently `'0'`) to the integer `0`
right after construction leaves the instance untouched. -/
theorem C2_set_channel_idempotent_witness :
    set_channel (initFridge 0) 5 "scroll1" (PyVal.int 0) =
      Except.ok (initFridge 0) :=
  C2_set_channel_idempotent (initFridge 0) 5 "scroll1" (PyVal.int 0)
    (by with_unfolding_all rfl) (Or.inl (by with_unfolding_all rfl))

/-- C8: for a nonempty history and any depth at least the history length,
`get_state` clamps to the oldest entry — it returns the same row as depth
`length - 1` and never errors. -/
theorem C8_get_state_clamp (f : Fridge) (d : Nat)
    (h1 : 1 ≤ f.state_log.length) (h2 : f.state_log.length ≤ d) :
    get_state f d = get_state f (f.state_log.length - 1) ∧
      (get_state f d).isSome := by
  constructor
  · rw [get_state, if_pos (by omega), get_state, if_neg (by omega)]
    congr 1
    omega
  · rw [get_state, if_pos (by omega)]
    simp [List.getElem?_eq_getElem (show 0 < f.state_log.length by omega)]

/-- Witness for C8: depth 5 against the single seeded snapshot. -/
theorem C8_get_state_clamp_witness :
    get_state (initFridge 0) 5 =
      get_state (initFridge 0) ((initFridge 0).state_log.length - 1) ∧
      (get_state (initFridge 0) 5).isSome :=
  C8_get_state_clamp (initFridge 0) 5 (by decide) (by decide)

/-- C1 counterexample: with an unknown channel AND an invalid value the call
fails with `UnknownChannel`, not `InvalidValue` — so "fails with
`InvalidValue` exactly when the value is outside `{0,1,2}`" is false as an
unconditional equivalence. -/
theorem C1_error_priority_counterexample :
    ¬(pyStr (PyVal.str "5") = "0" ∨ pyStr (PyVal.str "5") = "1" ∨
        pyStr (PyVal.str "5") = "2") ∧
    set_channel (initFridge 0) 1 "bogus" (PyVal.str "5") =
      Except.error SetError.unknownChannel := by
  constructor
  · decide
  · with_unfolding_all rfl

/-- C1 (amended): on every reachable instance, `set_channel` fails with
`UnknownChannel` exactly when the name is outside the fixed channel set, and
with `InvalidValue` exactly when the name is known and the value is outside
`{0,1,2}` (`UnknownChannel` takes precedence when both are bad); any
rejection leaves the instance completely unchanged. -/
theorem C1_set_channel_rejection (t0 : Nat) (ops : List Op) (now : Nat)
    (ch : String) (v : PyVal) :
    (set_channel (runOps (initFridge t0) ops) now ch v =
        Except.error SetError.unknownChannel ↔ ch ∉ channelNames) ∧
    (set_channel (runOps (initFridge t0) ops) now ch v =
        Except.error SetError.invalidValue ↔
      ch ∈ channelNames ∧ ¬(pyStr v = "0" ∨ pyStr v = "1" ∨ pyStr v = "2")) ∧
    (∀ e, set_channel (runOps (initFridge t0) ops) now ch v = Except.error e →
      stepOp (runOps (initFridge t0) ops) (Op.setCh now ch v) =
        runOps (initFridge t0) ops) := by
  have hkeys : (runOps (initFridge t0) ops).state.map Prod.fst = channelNames :=
    (FridgeInv_reachable t0 ops).1
  have hnone : lookupS (runOps (initFridge t0) ops).state ch = none ↔
      ch ∉ channelNames := by
    rw [lookupS_eq_none_iff, hkeys]
  refine ⟨?_, ?_, ?_⟩
  · rw [set_channel_eq_error_unknown_iff, hnone]
  · rw [set_channel_eq_error_invalid_iff]
    constructor
    · rintro ⟨ha, hb⟩
      refine ⟨?_, hb⟩
      by_contra hc
      exact ha (hnone.2 hc)
    · rintro ⟨ha, hb⟩
      exact ⟨fun hn => (hnone.1 hn) ha, hb⟩
  · intro e he
    simp only [stepOp]
    rw [he]
    rfl

/-- Witness for C1: rejecting an unknown channel right after construction
leaves the fridge untouched. -/
theorem C1_set_channel_rejection_witness :
    set_channel (initFridge 0) 1 "bogus" (PyVal.str "5") =
      Except.error SetError.unknownChannel ∧
    stepOp (initFridge 0) (Op.setCh 1 "bogus" (PyVal.str "5")) = initFridge 0 := by
  have h := C1_set_channel_rejection 0 [] 1 "bogus" (PyVal.str "5")
  have h1 : set_channel (initFridge 0) 1 "bogus" (PyVal.str "5") =
      Except.error SetError.unknownChannel := h.1.mpr (by decide)
  exact ⟨h1, h.2.2 SetError.unknownChannel h1⟩

/-- C3: every reachable instance has state, status, and pressure logs with
pointwise identical `(date, time)` stamps (hence the same length, at least
one entry); and a successful state-changing `set_channel` appends exactly
one row to each of the three logs, all carrying the stamp of the single
`datetime.now()` of the call. -/
theorem C3_logs_alignment :
    (∀ t0 ops, logsAligned (runOps (initFridge t0) ops)) ∧
    (∀ (f : Fridge) (now : Nat) (ch : String) (v : PyVal) (cur : String),
      lookupS f.state ch = some cur →
      (pyStr v = "0" ∨ pyStr v = "1" ∨ pyStr v = "2") →
      cur ≠ pyStr v →
      ∃ g, set_channel f now ch v = Except.ok g ∧
        g.state_log = f.state_log ++
          [⟨dateOf now, timeOf now, updateAssoc f.state ch (pyStr v)⟩] ∧
        g.status_log = f.status_log ++
          [⟨dateOf now, timeOf now,
            statusFields (applySensors ch (pyStr v) f.sensors)⟩] ∧
        g.pressure_log = f.pressure_log ++
          [⟨dateOf now, timeOf now,
            (padTo6 (applyPressures ch (pyStr v) f.pressures)).map fmt3e⟩]) := by
  constructor
  · exact fun t0 ops => (FridgeInv_reachable t0 ops).2.1
  · intro f now ch v cur h1 h2 h3
    have hne : lookupS f.state ch ≠ some (pyStr v) := by
      rw [h1]
      exact fun hc => h3 (Option.some.inj hc)
    have hnn : lookupS f.state ch ≠ none := by
      rw [h1]
      simp
    exact ⟨commitChange f now ch (pyStr v),
      set_channel_commit f now ch v hnn h2 hne,
      commitChange_state_log f now ch (pyStr v),
      commitChange_status_log f now ch (pyStr v),
      commitChange_pressure_log f now ch (pyStr v)⟩

/-- Witness for C3: turning the pulse tube on right after construction
appends one stamped row to each log. -/
theorem C3_logs_alignment_witness :
    ∃ g, set_channel (initFridge 0) 7 "pulsetube" (PyVal.int 1) = Except.ok g ∧
      g.state_log = (initFridge 0).state_log ++
        [⟨dateOf 7, timeOf 7,
          updateAssoc (initFridge 0).state "pulsetube" (pyStr (PyVal.int 1))⟩] ∧
      g.status_log = (initFridge 0).status_log ++
        [⟨dateOf 7, timeOf 7,
          statusFields (applySensors "pulsetube" (pyStr (PyVal.int 1))
            (initFridge 0).sensors)⟩] ∧
      g.pressure_log = (initFridge 0).pressure_log ++
        [⟨dateOf 7, timeOf 7,
          (padTo6 (applyPressures "pulsetube" (pyStr (PyVal.int 1))
            (initFridge 0).pressures)).map fmt3e⟩] :=
  C3_logs_alignment.2 (initFridge 0) 7 "pulsetube" (PyVal.int 1) "0"
    (by with_unfolding_all rfl)
    (Or.inr (Or.inl (by with_unfolding_all rfl)))
    (by with_unfolding_all decide)

/-- The value-level core shared by all toggles: flipping to
`'1' if current == '0' else '0'` always commits (the new value differs from
the current one) and the channel then stores the flipped value. -/
lemma toggle_set (f : Fridge) (now : Nat) (ch cur : String)
    (h1 : lookupS f.state ch = some cur)
    (h2 : cur = "0" ∨ cur = "1" ∨ cur = "2") :
    ∃ g, set_channel f now ch (PyVal.str (if cur = "0" then "1" else "0")) =
        Except.ok g ∧
      lookupS g.state ch = some (if cur = "0" then "1" else "0") := by
  have hvalid : pyStr (PyVal.str (if cur = "0" then "1" else "0")) = "0" ∨
      pyStr (PyVal.str (if cur = "0" then "1" else "0")) = "1" ∨
      pyStr (PyVal.str (if cur = "0" then "1" else "0")) = "2" := by
    rcases h2 with h | h | h <;> simp [pyStr, h]
  have hneq : cur ≠ pyStr (PyVal.str (if cur = "0" then "1" else "0")) := by
    rcases h2 with h | h | h <;> simp [pyStr, h]
  have hne : lookupS f.state ch ≠
      some (pyStr (PyVal.str (if cur = "0" then "1" else "0"))) := by
    rw [h1]
    exact fun hc => hneq (Option.some.inj hc)
  have hnn : lookupS f.state ch ≠ none := by
    rw [h1]
    simp
  refine ⟨_, set_channel_commit f now ch _ hnn hvalid hne, ?_⟩
  rw [commitChange_state, lookupS_updateAssoc_self, h1]
  rfl

/-- C6 counterexample: after `set_channel('pulsetube', '2')` the stored value
is Transitional, and `toggle_pulsetube` then commands `'0'` (Off) — the code
treats Transitional as the On baseline, not as the Off baseline commanded On
by the claim. -/
theorem C6_toggle_transitional_counterexample :
    lookupS (runOps (initFridge 0) [Op.setCh 1 "pulsetube" (PyVal.str "2")]).state
        "pulsetube" = some "2" ∧
    lookupS (runOps (initFridge 0) [Op.setCh 1 "pulsetube" (PyVal.str "2"),
        Op.togglePulsetube 2]).state "pulsetube" = some "0" := by
  constructor
  · with_unfolding_all rfl
  · with_unfolding_all rfl

/-- C6 (amended): every toggle flips Off to On and On to Off, and treats a
current Transitional value as the ON baseline — toggling a Transitional
channel commands it Off (`'0'`); the write is delegated to `set_channel`. -/
theorem C6_toggle_flip (f : Fridge) (now : Nat) :
    (∀ cur, lookupS f.state "pulsetube" = some cur →
      (cur = "0" ∨ cur = "1" ∨ cur = "2") →
      ∃ g, toggle_pulsetube f now = Except.ok g ∧
        lookupS g.state "pulsetube" = some (if cur = "0" then "1" else "0")) ∧
    (∀ cur, lookupS f.state "compressor" = some cur →
      (cur = "0" ∨ cur = "1" ∨ cur = "2") →
      ∃ g, toggle_compressor f now = Except.ok g ∧
        lookupS g.state "compressor" = some (if cur = "0" then "1" else "0")) ∧
    (∀ cur, lookupS f.state "turbo1" = some cur →
      (cur = "0" ∨ cur = "1" ∨ cur = "2") →
      ∃ g, toggle_turbo f now = Except.ok g ∧
        lookupS g.state "turbo1" = some (if cur = "0" then "1" else "0")) ∧
    (∀ name cur, name.startsWith "v" → lookupS f.state name = some cur →
      (cur = "0" ∨ cur = "1" ∨ cur = "2") →
      ∃ g, toggle_valve f now name = Except.ok g ∧
        lookupS g.state name = some (if cur = "0" then "1" else "0")) ∧
    (∀ name cur, name.startsWith "hs" → lookupS f.state name = some cur →
      (cur = "0" ∨ cur = "1" ∨ cur = "2") →
      ∃ g, toggle_heat_switch f now name = Except.ok g ∧
        lookupS g.state name = some (if cur = "0" then "1" else "0")) := by
  refine ⟨?_, ?_, ?_, ?_, ?_⟩
  · intro cur h1 h2
    have hres := toggle_set f now "pulsetube" cur h1 h2
    rw [toggle_pulsetube, h1]
    simpa using hres
  · intro cur h1 h2
    have hres := toggle_set f now "compressor" cur h1 h2
    rw [toggle_compressor, h1]
    simpa using hres
  · intro cur h1 h2
    have hres := toggle_set f now "turbo1" cur h1 h2
    rw [toggle_turbo, h1]
    simpa using hres
  · intro name cur hv h1 h2
    have hres := toggle_set f now name cur h1 h2
    rw [toggle_valve, if_neg (by simp [h1, hv]), h1]
    simpa using hres
  · intro name cur hv h1 h2
    have hres := toggle_set f now name cur h1 h2
    rw [toggle_heat_switch, if_neg (by simp [h1, hv]), h1]
    simpa using hres

/-- Witness for C6: toggling the pulse tube from Off commands On. -/
theorem C6_toggle_flip_witness :
    ∃ g, toggle_pulsetube (initFridge 0) 3 = Except.ok g ∧
      lookupS g.state "pulsetube" = some (if "0" = "0" then "1" else "0") :=
  (C6_toggle_flip (initFridge 0) 3).1 "0" (by with_unfolding_all rfl)
    (Or.inl rfl)

/-- C7: with every pressure strictly positive and a pump channel
(`scroll1`/`scroll2`/`turbo1`) currently Off, switching it On divides every
reading by the fixed factor 10 (the division is applied only to strictly
positive readings), and switching it back Off multiplies every reading by
10, recovering the original six values exactly (exact rationals model the
floats, so "within floating tolerance" holds with equality). -/
theorem C7_pump_pressure_roundtrip (f : Fridge) (now now2 : Nat) (ch : String)
    (hch : ch = "scroll1" ∨ ch = "scroll2" ∨ ch = "turbo1")
    (hcur : lookupS f.state ch = some "0")
    (hpos : ∀ p ∈ f.pressures, 0 < p) :
    ∃ g g2,
      set_channel f now ch (PyVal.str "1") = Except.ok g ∧
      g.pressures = f.pressures.map (fun p => if 0 < p then p / 10 else p) ∧
      g.pressures = f.pressures.map (fun p => p / 10) ∧
      set_channel g now2 ch (PyVal.str "0") = Except.ok g2 ∧
      g2.pressures = g.pressures.map (fun p => p * 10) ∧
      g2.pressures = f.pressures := by
  have h1 : set_channel f now ch (PyVal.str "1") =
      Except.ok (commitChange f now ch "1") :=
    set_channel_commit f now ch (PyVal.str "1") (by rw [hcur]; simp)
      (Or.inr (Or.inl rfl)) (by rw [hcur]; simp [pyStr])
  have hgp : (commitChange f now ch "1").pressures =
      f.pressures.map (fun p => if 0 < p then p / 10 else p) := by
    rw [commitChange_pressures, applyPressures, if_pos hch, if_pos rfl]
  have hgp2 : (commitChange f now ch "1").pressures =
      f.pressures.map (fun p => p / 10) := by
    rw [hgp]
    exact List.map_congr_left (fun p hp => if_pos (hpos p hp))
  have hglook : lookupS (commitChange f now ch "1").state ch = some "1" := by
    rw [commitChange_state, lookupS_updateAssoc_self, hcur]
    rfl
  have h2 : set_channel (commitChange f now ch "1") now2 ch (PyVal.str "0") =
      Except.ok (commitChange (commitChange f now ch "1") now2 ch "0") :=
    set_channel_commit _ now2 ch (PyVal.str "0") (by rw [hglook]; simp)
      (Or.inl rfl) (by rw [hglook]; simp [pyStr])
  refine ⟨commitChange f now ch "1",
    commitChange (commitChange f now ch "1") now2 ch "0", h1, hgp, hgp2, h2, ?_, ?_⟩
  · rw [commitChange_pressures, applyPressures, if_pos hch,
      if_neg (by decide : ¬ ("0" : String) = "1")]
  · rw [commitChange_pressures, applyPressures, if_pos hch,
      if_neg (by decide : ¬ ("0" : String) = "1"), hgp2, List.map_map]
    have hid : ∀ p ∈ f.pressures,
        ((fun p => p * 10) ∘ (fun p => p / 10)) p = p := by
      intro p hp
      simp only [Function.comp_apply]
      exact div_mul_cancel₀ p (by norm_num)
    rw [List.map_congr_left hid]
    simp

/-- Witness for C7: the scroll1 pump cycle on the freshly constructed
instance, whose six readings are all `1/1000 > 0`. -/
theorem C7_pump_pressure_roundtrip_witness :
    ∃ g g2,
      set_channel (initFridge 0) 4 "scroll1" (PyVal.str "1") = Except.ok g ∧
      g.pressures = (initFridge 0).pressures.map (fun p => if 0 < p then p / 10 else p) ∧
      g.pressures = (initFridge 0).pressures.map (fun p => p / 10) ∧
      set_channel g 9 "scroll1" (PyVal.str "0") = Except.ok g2 ∧
      g2.pressures = g.pressures.map (fun p => p * 10) ∧
      g2.pressures = (initFridge 0).pressures :=
  C7_pump_pressure_roundtrip (initFridge 0) 4 9 "scroll1" (Or.inl rfl)
    (by with_unfolding_all rfl)
    (by
      intro p hp
      have hp' : p = 1 / 1000 := List.eq_of_mem_replicate hp
      rw [hp']
      norm_num)

/-- C9: on every reachable instance whose stored state has pulse tube On and
compressor Off, the formatter's main-components rendering shows the pulse
tube with the Transitional glyph `🟡` while the stored channel value stays
`'1'` — the reinterpretation is computed at render time from the snapshot
and mutates nothing (`main_status_parts` is a pure function of the state). -/
theorem C9_pulsetube_transitional_display (t0 : Nat) (ops : List Op)
    (h1 : lookupS (runOps (initFridge t0) ops).state "pulsetube" = some "1")
    (h0 : lookupS (runOps (initFridge t0) ops).state "compressor" = some "0") :
    (main_status_parts (runOps (initFridge t0) ops))[4]? = some "🟡pt  " ∧
    lookupS (runOps (initFridge t0) ops).state "pulsetube" = some "1" := by
  have hinv := FridgeInv_reachable t0 ops
  have hne : (runOps (initFridge t0) ops).state_log ≠ [] := hinv.2.1.2.2
  have hfields : (get_state (runOps (initFridge t0) ops) 0).map StateRow.fields =
      some (runOps (initFridge t0) ops).state := by
    rw [get_state_zero _ hne]
    exact hinv.2.2.1
  refine ⟨?_, h1⟩
  unfold main_status_parts
  simp only [hfields, Option.getD_some]
  simp only [List.zip_cons_cons, List.zip_nil_right, List.map_cons, List.map_nil]
  rw [h1, h0]
  simp only [Option.getD_some]
  simp only [List.getElem?_cons_succ, List.getElem?_cons_zero]
  simp [displayVal, on_off_symbol]

/-- Witness for C9: starting fresh, `pulsetube=1` then `compressor=0` (the
latter a no-op since the compressor is already Off). -/
theorem C9_pulsetube_transitional_display_witness :
    (main_status_parts (runOps (initFridge 0) [Op.setCh 1 "pulsetube" (PyVal.int 1),
      Op.setCh 2 "compressor" (PyVal.int 0)]))[4]? = some "🟡pt  " ∧
    lookupS (runOps (initFridge 0) [Op.setCh 1 "pulsetube" (PyVal.int 1),
      Op.setCh 2 "compressor" (PyVal.int 0)]).state "pulsetube" = some "1" :=
  C9_pulsetube_transitional_display 0
    [Op.setCh 1 "pulsetube" (PyVal.int 1), Op.setCh 2 "compressor" (PyVal.int 0)]
    (by with_unfolding_all rfl) (by with_unfolding_all rfl)

/-- C10: on every reachable instance, re-parsing the latest logged state row
(`dict_state`) yields exactly the current channel values, and re-parsing the
latest logged, `%.3e`-formatted pressure row (`get_last_pressures`) yields
exactly the current six pressure readings — the mirrored CSV row is this
same row, so the written snapshot round-trips. -/
theorem C10_snapshot_roundtrip (t0 : Nat) (ops : List Op) :
    (dict_state (runOps (initFridge t0) ops) 0).map Prod.fst =
      some (runOps (initFridge t0) ops).state ∧
    get_last_pressures (runOps (initFridge t0) ops) =
      some (runOps (initFridge t0) ops).pressures ∧
    (runOps (initFridge t0) ops).pressures.length = 6 := by
  have hinv := FridgeInv_reachable t0 ops
  have hne : (runOps (initFridge t0) ops).state_log ≠ [] := hinv.2.1.2.2
  have hst := hinv.2.2.1
  refine ⟨?_, get_last_pressures_of_inv _ hinv, hinv.2.2.2.2.1⟩
  rw [dict_state, get_state_zero _ hne]
  cases hg : (runOps (initFridge t0) ops).state_log.getLast? with
  | none => rw [hg] at hst; simp at hst
  | some r =>
    rw [hg] at hst
    simpa using hst

/-- C5 counterexample: constructed at an instant with a nonzero sub-second
part (microsecond timestamp 1), the first `generate_alert_messages` call
moves the watermark backward — from the raw construction instant to its
whole-second truncation. -/
theorem C5_watermark_decreases_counterexample :
    (runOps (initFridge 1) [Op.scanEvents]).last_event_check_time <
      (initFridge 1).last_event_check_time := by
  decide

/-- C5 (amended): along any run whose wall-clock inputs are non-decreasing,
the watermark truncated to whole seconds never decreases at any step; the
raw watermark can only drop below its previous value by the sub-second
fraction of the construction instant, on the first scan after construction. -/
theorem C5_watermark_trunc_monotone (t0 : Nat) (ops : List Op) (op : Op)
    (hchain : List.Chain' (· ≤ ·) (t0 :: ops.filterMap opTime)) :
    truncSec ((runOps (initFridge t0) ops).last_event_check_time) ≤
      truncSec ((runOps (initFridge t0) (ops ++ [op])).last_event_check_time) := by
  obtain ⟨T', hT'⟩ := WmInv_run ops (initFridge t0) t0 (WmInv_init t0) hchain
  rw [runOps_append]
  exact wm_stepOp_trunc_mono _ op hT'.2.2.2

/-- Witness for C5: the first scan after construction keeps the truncated
watermark. -/
theorem C5_watermark_trunc_monotone_witness :
    truncSec ((runOps (initFridge 0) []).last_event_check_time) ≤
      truncSec ((runOps (initFridge 0) ([] ++ [Op.scanEvents])).last_event_check_time) :=
  C5_watermark_trunc_monotone 0 [] Op.scanEvents (by simp)

/-- C4: if the two newest state rows differ exactly by the condensing-script
pattern `{compressor: '1', v9: '1', v7: '1', v6: '1', v5: '1'}` (as a set),
the newest row is newer than the watermark and the one before it is not,
then the next scan returns `"Condensing script started"` exactly once — the
result is precisely that singleton — and an immediately repeated scan
returns the empty list. -/
theorem C4_condensing_event_once (f : Fridge) (pre : List StateRow)
    (r1 r2 : StateRow) (hlog : f.state_log = pre ++ [r1, r2])
    (hnew : f.last_event_check_time < parseRowTime r2)
    (hold : parseRowTime r1 ≤ f.last_event_check_time)
    (hdiff : setEq (diffRows r2 r1) condensingKey = true) :
    (generate_alert_messages f).1 = ["Condensing script started"] ∧
    (generate_alert_messages ((generate_alert_messages f).2)).1 = [] := by
  have hne : f.state_log ≠ [] := by
    rw [hlog]
    simp
  constructor
  · rw [gen_events_eq, hlog]
    have hrev : (pre ++ [r1, r2]).reverse = r2 :: r1 :: pre.reverse := by
      simp
    rw [hrev,
      scanRev_hit _ _ _ _ _ (by omega) (lookupMarker_condensing _ hdiff),
      scanRev_stop _ _ _ hold]
  · exact gen_after_gen f hne

/-- The pre-transition row of the concrete condensing scenario. -/
def condensingRowOld : StateRow := ⟨0, 0, channelNames.map (fun k => (k, "0"))⟩

/-- The post-transition row: compressor, v9, v7, v6, v5 switched on in one
snapshot, five seconds later. -/
def condensingRowNew : StateRow :=
  ⟨0, 5, [("scroll1", "0"), ("scroll2", "0"), ("turbo1", "0"), ("compressor", "1"),
          ("pulsetube", "0"), ("ext", "0"), ("v5", "1"), ("v6", "1"), ("v7", "1"),
          ("v9", "1"), ("v13", "0"), ("hs-still", "0"), ("hs-mc", "0")]⟩

/-- A fridge whose history ends with the condensing transition. -/
def condensingFridge : Fridge :=
  { initFridge 0 with state_log := [condensingRowOld, condensingRowNew] }

/-- Witness for C4 on the concrete scenario fridge. -/
theorem C4_condensing_event_once_witness :
    (generate_alert_messages condensingFridge).1 = ["Condensing script started"] ∧
    (generate_alert_messages ((generate_alert_messages condensingFridge).2)).1 = [] :=
  C4_condensing_event_once condensingFridge [] condensingRowOld condensingRowNew
    rfl (by decide) (by decide) (by decide)
